import Mathlib

/-!
A shallow embedding of `reaganplayer.py`, a terminal music player.

File names and paths are modelled as lists of characters (Python strings
compare and match suffixes by code point, which coincides with `Char`
comparison on `List Char`).  The external audio engine is modelled by an
oracle `loadOk : Name → Bool` saying whether `pygame.mixer.music.load`
succeeds on a given path, and `random.shuffle` by an arbitrary permutation
function passed as a parameter.  Side effects (engine calls, console error
reports, configuration saves) are recorded as an explicit list of
`Action`s returned alongside the new state.
-/

namespace ReaganPlayer

abbrev Name := List Char

/-- The tuple `audio_extensions` from the source. -/
def audio_extensions : List Name :=
  [".mp3".data, ".wav".data, ".ogg".data, ".flac".data,
   ".aiff".data, ".aif".data, ".m4a".data, ".aac".data]

/-- Python `str.endswith(tuple)`: true iff some extension is a suffix. -/
def endswith (f : Name) (exts : List Name) : Bool :=
  exts.any fun e => e.isSuffixOf f

/-- `os.path.basename`: the part of the path after the last separator. -/
def basename (p : Name) : Name :=
  p.foldl (fun acc c => if c = '/' then [] else acc ++ [c]) []

/-- `os.path.join(p, f)` for a relative final component. -/
def joinPath (p f : Name) : Name := p ++ '/' :: f

/-- A directory entry: `os.listdir` name plus whether `os.path.isdir`
holds for it. -/
inductive EntryKind
  | dir
  | file
deriving DecidableEq

structure DirEntry where
  name : Name
  kind : EntryKind
deriving DecidableEq

/-- Python `sorted` on file names (code-point lexicographic order). -/
def sortNames (l : List Name) : List Name :=
  List.insertionSort (· ≤ ·) l

/-- `all_contents = sorted(os.listdir(current_path))`. -/
def listContents (d : List DirEntry) : List Name :=
  sortNames (d.map DirEntry.name)

/-- `os.path.isdir(os.path.join(current_path, n))` for a child name. -/
def isDirEntry (d : List DirEntry) (n : Name) : Bool :=
  d.any fun e => e.name == n && (match e.kind with | .dir => true | .file => false)

/-- `folders = [d for d in all_contents if os.path.isdir(...)]`. -/
def folders (d : List DirEntry) : List Name :=
  (listContents d).filter (isDirEntry d)

/-- `audio_files = [f for f in all_contents if f.endswith(audio_extensions)]`.
Note: the source filters by name suffix only, with no `isfile` check. -/
def audio_files (d : List DirEntry) : List Name :=
  (listContents d).filter fun f => endswith f audio_extensions

/-- `view_playlist = [os.path.join(current_path, f) for f in audio_files]`. -/
def view_playlist (p : Name) (d : List DirEntry) : List Name :=
  (audio_files d).map (joinPath p)

/-- The persisted configuration record. -/
structure Config where
  music_folder : Name
  volume : ℚ
  shuffle_on : Bool
  page_size : Int
  current_page : Int
deriving DecidableEq

/-- The mutable player state threaded through the dispatcher loop. -/
structure PState where
  config : Config
  current_playlist : List Name
  current_song_index : Int
  now_playing_song : Option Name
  is_paused : Bool
  queue : List Name
deriving DecidableEq

/-- Observable side effects of a dispatcher step. -/
inductive Action
  | load (p : Name)
  | reportLoadFailed (b : Name)
  | setVolume (v : ℚ)
  | saveConfig
deriving DecidableEq

/-- `play_song`: `pygame.mixer.music.load` + `play`; on `pygame.error`
prints an error naming `os.path.basename(song_path)` and returns `False`. -/
def play_song (loadOk : Name → Bool) (song_path : Name) : Bool × List Action :=
  if loadOk song_path then (true, [Action.load song_path])
  else (false, [Action.reportLoadFailed (basename song_path)])

/-- Python list indexing for in-range indices (`playlist[i]`). -/
def getIdx (l : List Name) (i : Int) : Name := l.getD i.toNat []

/-- Python truthiness of `now_playing_song` (None and `""` are falsy). -/
def truthy : Option Name → Bool
  | none => false
  | some s => !s.isEmpty

/-- `current_playlist.index(x)` with `except ValueError: -1`. -/
def indexOrNeg (l : List Name) (x : Name) : Int :=
  if x ∈ l then (l.indexOf x : Int) else -1

/-- `current_playlist.index(x)` with `except ValueError: 0`. -/
def indexOrZero (l : List Name) (x : Name) : Int :=
  if x ∈ l then (l.indexOf x : Int) else 0

/-- `queue.pop(0)` on a non-empty queue, `None` when empty. -/
def dequeue_next : List Name → Option (Name × List Name)
  | [] => none
  | x :: xs => some (x, xs)

/-- The `pygame.USEREVENT` (track finished) branch of the event loop:
pop the queue if non-empty, else advance the playlist with wraparound. -/
def handleEndEvent (loadOk : Name → Bool) (st : PState) : PState × List Action :=
  match st.queue with
  | next_song :: rest =>
    ({ st with queue := rest,
               now_playing_song := some next_song,
               current_song_index := -1 },
     (play_song loadOk next_song).2)
  | [] =>
    if st.current_playlist.isEmpty then (st, [])
    else
      let i := (st.current_song_index + 1) % (st.current_playlist.length : Int)
      ({ st with current_song_index := i,
                 now_playing_song := some (getIdx st.current_playlist i) },
       (play_song loadOk (getIdx st.current_playlist i)).2)

/-- The `'>'` command: queue-priority next; playlist branch requires a
non-empty playlist and `current_song_index != -1`. -/
def handleNext (loadOk : Name → Bool) (st : PState) : PState × List Action :=
  match st.queue with
  | next_song :: rest =>
    ({ st with queue := rest,
               now_playing_song := some next_song,
               current_song_index := -1 },
     (play_song loadOk next_song).2)
  | [] =>
    if ¬ st.current_playlist.isEmpty ∧ st.current_song_index ≠ -1 then
      let i := (st.current_song_index + 1) % (st.current_playlist.length : Int)
      ({ st with current_song_index := i,
                 now_playing_song := some (getIdx st.current_playlist i) },
       (play_song loadOk (getIdx st.current_playlist i)).2)
    else (st, [])

/-- The `'<'` command: previous within the active playlist only. -/
def handlePrev (loadOk : Name → Bool) (st : PState) : PState × List Action :=
  if ¬ st.current_playlist.isEmpty ∧ st.current_song_index ≠ -1 then
    let i := (st.current_song_index - 1 + (st.current_playlist.length : Int)) %
               (st.current_playlist.length : Int)
    ({ st with current_song_index := i,
               now_playing_song := some (getIdx st.current_playlist i) },
     (play_song loadOk (getIdx st.current_playlist i)).2)
  else (st, [])

/-- The `'+'` command: volume up by 0.1, clamped at 1.0, applied and saved. -/
def handleVolumeUp (st : PState) : PState × List Action :=
  let v := min 1 (st.config.volume + 1/10)
  ({ st with config := { st.config with volume := v } },
   [Action.setVolume v, Action.saveConfig])

/-- The `'-'` command: volume down by 0.1, clamped at 0.0, applied and saved. -/
def handleVolumeDown (st : PState) : PState × List Action :=
  let v := max 0 (st.config.volume - 1/10)
  ({ st with config := { st.config with volume := v } },
   [Action.setVolume v, Action.saveConfig])

/-- The `'n'` command: next page if more audio files remain past the
current window, else wrap to page 0; always saved. -/
def handlePageNext (numAudio : Int) (st : PState) : PState × List Action :=
  let start_index := st.config.current_page * st.config.page_size
  if start_index + st.config.page_size < numAudio then
    ({ st with config := { st.config with current_page := st.config.current_page + 1 } },
     [Action.saveConfig])
  else
    ({ st with config := { st.config with current_page := 0 } },
     [Action.saveConfig])

/-- The `'p'` command: previous page, floored at 0; always saved. -/
def handlePagePrev (st : PState) : PState × List Action :=
  ({ st with config := { st.config with current_page := max 0 (st.config.current_page - 1) } },
   [Action.saveConfig])

/-- The `'s'` command: guarded by `if view_playlist:`; forces shuffle on,
saves, rebuilds a shuffled playlist and plays its first track. -/
def handleShufflePlay (shuffle : List Name → List Name) (loadOk : Name → Bool)
    (vp : List Name) (st : PState) : PState × List Action :=
  if vp.isEmpty then (st, [])
  else
    let pl := shuffle vp
    ({ st with config := { st.config with shuffle_on := true },
               current_playlist := pl,
               current_song_index := 0,
               now_playing_song := some (getIdx pl 0) },
     Action.saveConfig :: (play_song loadOk (getIdx pl 0)).2)

/-- The `'t'` command: flip the shuffle flag, save, rebuild the active
playlist from the view playlist, and relocate the now-playing track
when one is playing and `current_song_index != -1`. -/
def handleToggleShuffle (shuffle : List Name → List Name) (busy : Bool)
    (vp : List Name) (st : PState) : PState × List Action :=
  let config' := { st.config with shuffle_on := !st.config.shuffle_on }
  let pl := if config'.shuffle_on then shuffle vp else sortNames vp
  let idx :=
    if truthy st.now_playing_song = true ∧ busy = true ∧ st.current_song_index ≠ -1 then
      indexOrNeg pl (st.now_playing_song.getD [])
    else st.current_song_index
  ({ st with config := config', current_playlist := pl, current_song_index := idx },
   [Action.saveConfig])

/-- Selecting a file by number: rebuild the active playlist (shuffled or
sorted per the flag), locate the selected file (0 when absent), play. -/
def handleSelectFile (shuffle : List Name → List Name) (loadOk : Name → Bool)
    (vp : List Name) (selected : Name) (st : PState) : PState × List Action :=
  let pl := if st.config.shuffle_on then shuffle vp else sortNames vp
  let idx := indexOrZero pl selected
  ({ st with current_playlist := pl,
             current_song_index := idx,
             now_playing_song := some (getIdx pl idx) },
   (play_song loadOk (getIdx pl idx)).2)

/-- The `add` command after reading a number: enqueue at the tail when the
number resolves to a file, else report invalid selection. -/
def handleAdd (item_map : Int → Option Name) (isFile : Name → Bool)
    (add_choice : Int) (st : PState) : PState × List Action :=
  match item_map add_choice with
  | some p => if isFile p then ({ st with queue := st.queue ++ [p] }, []) else (st, [])
  | none => (st, [])

/-- The `clear` command: `queue.clear()`. -/
def handleClear (st : PState) : PState × List Action :=
  ({ st with queue := [] }, [])

/-! Concrete states used in counterexamples and witnesses. -/

def cfg0 : Config :=
  { music_folder := "audio".data, volume := 1/2, shuffle_on := false,
    page_size := 10, current_page := 0 }

def st0 : PState :=
  { config := cfg0, current_playlist := [], current_song_index := -1,
    now_playing_song := none, is_paused := false, queue := [] }

/-- A state where `old.mp3` is playing and `bad.mp3` sits at the queue head. -/
def stC1 : PState :=
  { st0 with current_playlist := ["old.mp3".data], current_song_index := 0,
             now_playing_song := some "old.mp3".data, queue := ["bad.mp3".data] }

/-- A state with a playing playlist and two queued tracks. -/
def stC2 : PState :=
  { st0 with current_playlist := ["p.mp3".data], current_song_index := 0,
             now_playing_song := some "p.mp3".data,
             queue := ["a.mp3".data, "b.mp3".data] }

/-- A three-track playlist positioned at the last index, queue empty. -/
def stWrap2 : PState :=
  { st0 with current_playlist := ["a.mp3".data, "b.mp3".data, "c.mp3".data],
             current_song_index := 2 }

/-- A three-track playlist positioned at the first index, queue empty. -/
def stWrap0 : PState :=
  { st0 with current_playlist := ["a.mp3".data, "b.mp3".data, "c.mp3".data],
             current_song_index := 0 }

/-- A state whose persisted page is `p` (page size 10). -/
def pageState (p : Int) : PState :=
  { st0 with config := { cfg0 with current_page := p } }

/-- A state playing `b.mp3` at playlist position 0. -/
def stT : PState :=
  { st0 with current_playlist := ["a.mp3".data, "b.mp3".data],
             current_song_index := 0, now_playing_song := some "b.mp3".data }

/-- A view playlist of two tracks. -/
def viewT : List Name := ["a.mp3".data, "b.mp3".data]

/-- A directory holding a single child that is a DIRECTORY named `a.mp3`. -/
def dEx : List DirEntry := [{ name := "a.mp3".data, kind := EntryKind.dir }]

/-- A directory holding a single regular file named `SONG.MP3`. -/
def dSong : List DirEntry := [{ name := "SONG.MP3".data, kind := EntryKind.file }]

/-- C7: the `n` command increments `current_page` by one exactly when more
audio files remain beyond the current pagination window
(`current_page * page_size + page_size < number of audio files`) and
otherwise resets `current_page` to 0; the `p` command decrements
`current_page` by one but never below 0; both persist the config; with
`page_size = 10` and 25 audio files, successive `n` cycles the page
0, 1, 2, 0, and `p` at page 0 leaves it at 0. -/
theorem c7_pagination (numAudio : Int) (st : PState) :
    ((handlePageNext numAudio st).1.config.current_page =
      if st.config.current_page * st.config.page_size + st.config.page_size < numAudio
      then st.config.current_page + 1 else 0) ∧
    (handlePageNext numAudio st).2 = [Action.saveConfig] ∧
    (handlePagePrev st).1.config.current_page = max 0 (st.config.current_page - 1) ∧
    0 ≤ (handlePagePrev st).1.config.current_page ∧
    (handlePagePrev st).2 = [Action.saveConfig] ∧
    (handlePageNext 25 (pageState 0)).1.config.current_page = 1 ∧
    (handlePageNext 25 (pageState 1)).1.config.current_page = 2 ∧
    (handlePageNext 25 (pageState 2)).1.config.current_page = 0 ∧
    (handlePagePrev (pageState 0)).1.config.current_page = 0 := by
  have hn : (handlePageNext numAudio st).1.config.current_page =
      (if st.config.current_page * st.config.page_size + st.config.page_size < numAudio
       then st.config.current_page + 1 else 0) ∧
      (handlePageNext numAudio st).2 = [Action.saveConfig] := by
    by_cases h : st.config.current_page * st.config.page_size + st.config.page_size < numAudio <;>
      simp [handlePageNext, h]
  exact ⟨hn.1, hn.2, rfl, le_max_left 0 _, rfl, by decide, by decide, by decide, by decide⟩

/-- C8: for every starting volume in `[0, 1]`, the `+` command changes the
stored volume by exactly `+0.1` and `-` by exactly `-0.1`, clamped so the
result stays within `[0, 1]` (at the bounds the clamped step is smaller),
and the new value is applied to the engine immediately and persisted. -/
theorem c8_volume (st : PState) (h0 : 0 ≤ st.config.volume) (h1 : st.config.volume ≤ 1) :
    (0 ≤ (handleVolumeUp st).1.config.volume ∧ (handleVolumeUp st).1.config.volume ≤ 1) ∧
    (st.config.volume + 1/10 ≤ 1 →
      (handleVolumeUp st).1.config.volume = st.config.volume + 1/10) ∧
    (1 < st.config.volume + 1/10 →
      (handleVolumeUp st).1.config.volume = 1 ∧
      (handleVolumeUp st).1.config.volume - st.config.volume < 1/10) ∧
    (handleVolumeUp st).2 =
      [Action.setVolume (handleVolumeUp st).1.config.volume, Action.saveConfig] ∧
    (0 ≤ (handleVolumeDown st).1.config.volume ∧ (handleVolumeDown st).1.config.volume ≤ 1) ∧
    (0 ≤ st.config.volume - 1/10 →
      (handleVolumeDown st).1.config.volume = st.config.volume - 1/10) ∧
    (st.config.volume - 1/10 < 0 →
      (handleVolumeDown st).1.config.volume = 0 ∧
      st.config.volume - (handleVolumeDown st).1.config.volume < 1/10) ∧
    (handleVolumeDown st).2 =
      [Action.setVolume (handleVolumeDown st).1.config.volume, Action.saveConfig] := by
  have hup : (handleVolumeUp st).1.config.volume = min 1 (st.config.volume + 1/10) := rfl
  have hdn : (handleVolumeDown st).1.config.volume = max 0 (st.config.volume - 1/10) := rfl
  refine ⟨⟨?_, ?_⟩, ?_, ?_, rfl, ⟨?_, ?_⟩, ?_, ?_, rfl⟩
  · rw [hup]; exact le_min (by norm_num) (by linarith)
  · rw [hup]; exact min_le_left _ _
  · intro h; rw [hup]; exact min_eq_right h
  · intro h
    rw [hup, min_eq_left (by linarith)]
    constructor
    · rfl
    · linarith
  · rw [hdn]; exact le_max_left _ _
  · rw [hdn]; exact max_le (by norm_num) (by linarith)
  · intro h; rw [hdn]; exact max_eq_right h
  · intro h
    rw [hdn, max_eq_left (by linarith)]
    constructor
    · rfl
    · linarith

/-- Witness for C8 at volume `1/2`. -/
theorem c8_volume_witness :
    (handleVolumeUp st0).1.config.volume = st0.config.volume + 1/10 :=
  (c8_volume st0 (by norm_num [st0, cfg0]) (by norm_num [st0, cfg0])).2.1 (by norm_num [st0, cfg0])

/-- C9: the queue is strictly FIFO: tracks are appended only at the tail
(via a successful `add`) and removed only from the head (when popped for
playback) or all at once (via `clear`); after enqueueing `a` then `b` on
an empty queue, the first dequeue returns `a` and the second returns `b`. -/
theorem c9_queue_fifo (item_map : Int → Option Name) (isFile : Name → Bool) (n : Int)
    (loadOk : Name → Bool) (st : PState) (a b : Name) :
    (∀ p, item_map n = some p → isFile p = true →
      (handleAdd item_map isFile n st).1.queue = st.queue ++ [p]) ∧
    (∀ p, item_map n = some p → isFile p = false →
      (handleAdd item_map isFile n st).1.queue = st.queue) ∧
    (item_map n = none → (handleAdd item_map isFile n st).1.queue = st.queue) ∧
    (∀ x rest, st.queue = x :: rest →
      (handleNext loadOk st).1.queue = rest ∧ (handleEndEvent loadOk st).1.queue = rest) ∧
    (st.queue = [] →
      (handleNext loadOk st).1.queue = [] ∧ (handleEndEvent loadOk st).1.queue = []) ∧
    (handleClear st).1.queue = [] ∧
    dequeue_next (([] : List Name) ++ [a] ++ [b]) = some (a, [b]) ∧
    dequeue_next [b] = some (b, []) := by
  obtain ⟨cf, pl, i, np, ip, q⟩ := st
  refine ⟨?_, ?_, ?_, ?_, ?_, rfl, rfl, rfl⟩
  · intro p hp hf; simp [handleAdd, hp, hf]
  · intro p hp hf; simp [handleAdd, hp, hf]
  · intro hp; simp [handleAdd, hp]
  · rintro x rest rfl
    constructor
    · rfl
    · rfl
  · rintro rfl
    constructor
    · simp only [handleNext]
      split
      · rfl
      · rfl
    · simp only [handleEndEvent]
      split
      · rfl
      · rfl

/-- Witness for C9: adding a resolvable file appends it at the tail. -/
theorem c9_queue_fifo_witness :
    (handleAdd (fun _ => some "a.mp3".data) (fun _ => true) 1 stC2).1.queue =
      stC2.queue ++ ["a.mp3".data] :=
  (c9_queue_fifo (fun _ => some "a.mp3".data) (fun _ => true) 1 (fun _ => true) stC2
    "a.mp3".data "b.mp3".data).1 "a.mp3".data rfl rfl

/-- C2: whenever the queue is non-empty, both the completion-signal handler
and the manual `>` command pop the queue head, play it, set `now_playing`
to it, and set the active index to -1, without consulting or modifying the
active playlist; playlist advancement happens only when the queue is empty. -/
theorem c2_queue_priority (loadOk : Name → Bool) (st : PState) (x : Name) (rest : List Name)
    (hq : st.queue = x :: rest) :
    (handleEndEvent loadOk st).1.queue = rest ∧
    (handleEndEvent loadOk st).1.now_playing_song = some x ∧
    (handleEndEvent loadOk st).1.current_song_index = -1 ∧
    (handleEndEvent loadOk st).1.current_playlist = st.current_playlist ∧
    (handleEndEvent loadOk st).2 = (play_song loadOk x).2 ∧
    (∀ pl, (handleEndEvent loadOk { st with current_playlist := pl }).1 =
        { (handleEndEvent loadOk st).1 with current_playlist := pl } ∧
      (handleEndEvent loadOk { st with current_playlist := pl }).2 =
        (handleEndEvent loadOk st).2) ∧
    (handleNext loadOk st).1.queue = rest ∧
    (handleNext loadOk st).1.now_playing_song = some x ∧
    (handleNext loadOk st).1.current_song_index = -1 ∧
    (handleNext loadOk st).1.current_playlist = st.current_playlist ∧
    (handleNext loadOk st).2 = (play_song loadOk x).2 ∧
    (∀ pl, (handleNext loadOk { st with current_playlist := pl }).1 =
        { (handleNext loadOk st).1 with current_playlist := pl } ∧
      (handleNext loadOk { st with current_playlist := pl }).2 =
        (handleNext loadOk st).2) := by
  obtain ⟨cf, pl0, i, np, ip, q⟩ := st
  simp only at hq
  subst hq
  exact ⟨rfl, rfl, rfl, rfl, rfl, fun pl => ⟨rfl, rfl⟩,
         rfl, rfl, rfl, rfl, rfl, fun pl => ⟨rfl, rfl⟩⟩

/-- Witness for C2 on a concrete state with a two-track queue. -/
theorem c2_queue_priority_witness :
    (handleNext (fun _ => true) stC2).1.current_song_index = -1 :=
  (c2_queue_priority (fun _ => true) stC2 "a.mp3".data ["b.mp3".data] rfl).2.2.2.2.2.2.2.2.1

/-- C6: with the queue empty, `>` sets the active index to
`(index + 1) mod length` and `<` sets it to `(index - 1) mod length`,
wrapping in both directions (length 3 at index 2, next yields 0; at
index 0, previous yields 2), and each plays the track at the new index;
both are no-ops when the active playlist is empty or the index is -1. -/
theorem c6_next_prev_wrap (loadOk : Name → Bool) (st : PState) (hq : st.queue = []) :
    (¬ st.current_playlist.isEmpty ∧ st.current_song_index ≠ -1 →
      (handleNext loadOk st).1.current_song_index =
        (st.current_song_index + 1) % (st.current_playlist.length : Int) ∧
      (handleNext loadOk st).1.now_playing_song =
        some (getIdx st.current_playlist
          ((st.current_song_index + 1) % (st.current_playlist.length : Int))) ∧
      (handleNext loadOk st).2 =
        (play_song loadOk (getIdx st.current_playlist
          ((st.current_song_index + 1) % (st.current_playlist.length : Int)))).2) ∧
    (¬ st.current_playlist.isEmpty ∧ st.current_song_index ≠ -1 →
      (handlePrev loadOk st).1.current_song_index =
        (st.current_song_index - 1) % (st.current_playlist.length : Int) ∧
      (handlePrev loadOk st).1.now_playing_song =
        some (getIdx st.current_playlist
          ((st.current_song_index - 1) % (st.current_playlist.length : Int))) ∧
      (handlePrev loadOk st).2 =
        (play_song loadOk (getIdx st.current_playlist
          ((st.current_song_index - 1) % (st.current_playlist.length : Int)))).2) ∧
    (st.current_playlist = [] ∨ st.current_song_index = -1 →
      handleNext loadOk st = (st, []) ∧ handlePrev loadOk st = (st, [])) ∧
    (handleNext (fun _ => true) stWrap2).1.current_song_index = 0 ∧
    (handlePrev (fun _ => true) stWrap0).1.current_song_index = 2 := by
  obtain ⟨cf, pl, i, np, ip, q⟩ := st
  simp only at hq
  subst hq
  refine ⟨?_, ?_, ?_, by decide, by decide⟩
  · rintro ⟨h1, h2⟩
    refine ⟨?_, ?_, ?_⟩ <;> simp [handleNext, h1, h2]
  · rintro ⟨h1, h2⟩
    have hmod : (i - 1 + (pl.length : Int)) % (pl.length : Int) =
        (i - 1) % (pl.length : Int) := Int.add_emod_self
    refine ⟨?_, ?_, ?_⟩ <;> simp [handlePrev, h1, h2, hmod]
  · rintro (h | h)
    · subst h
      constructor
      · simp [handleNext]
      · simp [handlePrev]
    · subst h
      constructor
      · simp [handleNext]
      · simp [handlePrev]

/-- Witness for C6 on a three-track playlist at the last index. -/
theorem c6_next_prev_wrap_witness :
    (handleNext (fun _ => true) stWrap2).1.current_song_index =
      (stWrap2.current_song_index + 1) % (stWrap2.current_playlist.length : Int) :=
  ((c6_next_prev_wrap (fun _ => true) stWrap2 rfl).1 (by decide)).1

/-! Helper lemmas shared by several claims. -/

theorem mem_sortNames {l : List Name} {x : Name} : x ∈ sortNames l ↔ x ∈ l :=
  (List.perm_insertionSort _ l).mem_iff

theorem sortNames_perm (l : List Name) : (sortNames l).Perm l :=
  List.perm_insertionSort _ l

theorem indexOf_lt_len {l : List Name} {x : Name} (h : x ∈ l) :
    l.indexOf x < l.length :=
  List.findIdx_lt_length_of_exists ⟨x, h, by simp⟩

theorem getIdx_indexOf {l : List Name} {x : Name} (h : x ∈ l) :
    getIdx l ((l.indexOf x : Nat) : Int) = x := by
  simp only [getIdx, Int.toNat_natCast]
  rw [List.getD_eq_getElem _ _ (indexOf_lt_len h)]
  exact eq_of_beq (@List.findIdx_getElem _ (fun y => y == x) l (indexOf_lt_len h))

/-- C3: toggling shuffle with `t` flips and persists `shuffle_on`, rebuilds
the active playlist from the view playlist (a freshly shuffled copy when
the new flag is on, the sorted copy when off), and, exactly when a track
is currently playing and playback is not queue-driven (the index was not
-1), sets the index to the position of `now_playing` in the new playlist,
or to -1 if it is absent; the loaded audio is not re-loaded or restarted
by the toggle. -/
theorem c3_toggle_shuffle (shuffle : List Name → List Name) (busy : Bool)
    (vp : List Name) (st : PState)
    (hperm : ∀ l, (shuffle l).Perm l) :
    (handleToggleShuffle shuffle busy vp st).1.config.shuffle_on = !st.config.shuffle_on ∧
    (handleToggleShuffle shuffle busy vp st).2 = [Action.saveConfig] ∧
    (handleToggleShuffle shuffle busy vp st).1.current_playlist.Perm vp ∧
    ((!st.config.shuffle_on) = true →
      (handleToggleShuffle shuffle busy vp st).1.current_playlist = shuffle vp) ∧
    ((!st.config.shuffle_on) = false →
      (handleToggleShuffle shuffle busy vp st).1.current_playlist = sortNames vp ∧
      List.Sorted (· ≤ ·) (handleToggleShuffle shuffle busy vp st).1.current_playlist) ∧
    (truthy st.now_playing_song = true ∧ busy = true ∧ st.current_song_index ≠ -1 →
      (st.now_playing_song.getD [] ∈ (handleToggleShuffle shuffle busy vp st).1.current_playlist →
        (handleToggleShuffle shuffle busy vp st).1.current_song_index =
          ((handleToggleShuffle shuffle busy vp st).1.current_playlist.indexOf
            (st.now_playing_song.getD []) : Int) ∧
        getIdx (handleToggleShuffle shuffle busy vp st).1.current_playlist
            (handleToggleShuffle shuffle busy vp st).1.current_song_index =
          st.now_playing_song.getD []) ∧
      (st.now_playing_song.getD [] ∉ (handleToggleShuffle shuffle busy vp st).1.current_playlist →
        (handleToggleShuffle shuffle busy vp st).1.current_song_index = -1)) ∧
    (¬ (truthy st.now_playing_song = true ∧ busy = true ∧ st.current_song_index ≠ -1) →
      (handleToggleShuffle shuffle busy vp st).1.current_song_index =
        st.current_song_index) ∧
    (handleToggleShuffle shuffle busy vp st).1.now_playing_song = st.now_playing_song ∧
    (handleToggleShuffle shuffle busy vp st).1.queue = st.queue := by
  have hpl : (handleToggleShuffle shuffle busy vp st).1.current_playlist =
      if (!st.config.shuffle_on) = true then shuffle vp else sortNames vp := rfl
  have hidx : (handleToggleShuffle shuffle busy vp st).1.current_song_index =
      if truthy st.now_playing_song = true ∧ busy = true ∧ st.current_song_index ≠ -1 then
        indexOrNeg (if (!st.config.shuffle_on) = true then shuffle vp else sortNames vp)
          (st.now_playing_song.getD [])
      else st.current_song_index := rfl
  refine ⟨rfl, rfl, ?_, ?_, ?_, ?_, ?_, rfl, rfl⟩
  · rw [hpl]
    split
    · exact hperm vp
    · exact sortNames_perm vp
  · intro h; rw [hpl, if_pos h]
  · intro h
    have h' : ¬ ((!st.config.shuffle_on) = true) := by simp [h]
    constructor
    · rw [hpl, if_neg h']
    · rw [hpl, if_neg h']
      exact List.sorted_insertionSort _ _
  · intro hc
    rw [hidx, if_pos hc]
    constructor
    · intro hmem
      rw [hpl] at hmem
      rw [indexOrNeg, if_pos hmem]
      refine ⟨by rw [hpl], ?_⟩
      rw [hpl]
      exact getIdx_indexOf hmem
    · intro hmem
      rw [hpl] at hmem
      rw [indexOrNeg, if_neg hmem]
  · intro hc
    rw [hidx, if_neg hc]

/-- Witness for C3: the playing track `b.mp3` is relocated in the rebuilt
(reversed, as a concrete permutation) playlist. -/
theorem c3_toggle_shuffle_witness :
    (handleToggleShuffle List.reverse true viewT stT).1.current_song_index =
      ((handleToggleShuffle List.reverse true viewT stT).1.current_playlist.indexOf
        (stT.now_playing_song.getD []) : Int) :=
  (((c3_toggle_shuffle List.reverse true viewT stT (fun l => List.reverse_perm l)).2.2.2.2.2.1
      (by decide)).1 (by decide)).1

/-- C4 counterexample: with an empty view playlist the `s` command is a
complete no-op — in particular it does not force `shuffle_on` to true and
starts no playback, contrary to the claim's "for every state". -/
theorem c4_counterexample :
    (handleShufflePlay (fun l => l) (fun _ => true) [] st0).1 = st0 ∧
    (handleShufflePlay (fun l => l) (fun _ => true) [] st0).2 = [] ∧
    st0.config.shuffle_on = false :=
  ⟨rfl, rfl, rfl⟩

/-- C4 (amended): when the view playlist is non-empty, the `s` command
forces `shuffle_on` to true (and persists it), replaces the active
playlist with a freshly shuffled copy of the view playlist, sets the
index to 0, and starts playing the track at index 0; when the view
playlist is empty it is a no-op. -/
theorem c4_shuffle_play (shuffle : List Name → List Name) (loadOk : Name → Bool)
    (vp : List Name) (st : PState) (hvp : vp ≠ [])
    (hperm : (shuffle vp).Perm vp) :
    (handleShufflePlay shuffle loadOk vp st).1.config.shuffle_on = true ∧
    (handleShufflePlay shuffle loadOk vp st).2 =
      Action.saveConfig :: (play_song loadOk (getIdx (shuffle vp) 0)).2 ∧
    (handleShufflePlay shuffle loadOk vp st).1.current_playlist = shuffle vp ∧
    (handleShufflePlay shuffle loadOk vp st).1.current_playlist.Perm vp ∧
    (handleShufflePlay shuffle loadOk vp st).1.current_song_index = 0 ∧
    (handleShufflePlay shuffle loadOk vp st).1.now_playing_song =
      some (getIdx (shuffle vp) 0) := by
  have he : ¬ (vp.isEmpty = true) := by simp [hvp]
  have hred : handleShufflePlay shuffle loadOk vp st =
      ({ st with config := { st.config with shuffle_on := true },
                 current_playlist := shuffle vp,
                 current_song_index := 0,
                 now_playing_song := some (getIdx (shuffle vp) 0) },
       Action.saveConfig :: (play_song loadOk (getIdx (shuffle vp) 0)).2) := by
    simp only [handleShufflePlay]
    rw [if_neg he]
  rw [hred]
  exact ⟨rfl, rfl, rfl, hperm, rfl, rfl⟩

/-- Witness for C4 on a one-track view playlist with the identity
permutation as the concrete shuffle. -/
theorem c4_shuffle_play_witness :
    (handleShufflePlay (fun l => l) (fun _ => true) ["a.mp3".data] st0).1.config.shuffle_on =
      true :=
  (c4_shuffle_play (fun l => l) (fun _ => true) ["a.mp3".data] st0 (by decide)
    (List.Perm.refl _)).1

/-- C1 counterexample: with `old.mp3` as the current track and `bad.mp3`
queued, a failing engine load on `>` reports the failure, but
`now_playing_song` does not keep its previous value — the player state is
changed by the failed attempt. -/
theorem c1_counterexample :
    (handleNext (fun _ => false) stC1).2 = [Action.reportLoadFailed "bad.mp3".data] ∧
    (handleNext (fun _ => false) stC1).1.now_playing_song ≠ stC1.now_playing_song := by
  constructor
  · rfl
  · decide

/-- C1 (amended): whenever the engine load fails while starting a track —
via the completion signal, the `>` command, the `s` command, or selecting
a file by number — the player reports the failure naming the file and the
paused flag keeps its value, but `now_playing_song` is set to the track
whose load failed rather than keeping its previous value. -/
theorem c1_load_failure_amended (shuffle : List Name → List Name) (loadOk : Name → Bool)
    (vp : List Name) (st : PState) (hperm : ∀ l, (shuffle l).Perm l) :
    (∀ x rest, st.queue = x :: rest → loadOk x = false →
      (handleEndEvent loadOk st).2 = [Action.reportLoadFailed (basename x)] ∧
      (handleEndEvent loadOk st).1.is_paused = st.is_paused ∧
      (handleEndEvent loadOk st).1.now_playing_song = some x) ∧
    (∀ x rest, st.queue = x :: rest → loadOk x = false →
      (handleNext loadOk st).2 = [Action.reportLoadFailed (basename x)] ∧
      (handleNext loadOk st).1.is_paused = st.is_paused ∧
      (handleNext loadOk st).1.now_playing_song = some x) ∧
    (st.queue = [] → st.current_playlist.isEmpty = false →
      loadOk (getIdx st.current_playlist
        ((st.current_song_index + 1) % (st.current_playlist.length : Int))) = false →
      (handleEndEvent loadOk st).2 =
        [Action.reportLoadFailed (basename (getIdx st.current_playlist
          ((st.current_song_index + 1) % (st.current_playlist.length : Int))))] ∧
      (handleEndEvent loadOk st).1.is_paused = st.is_paused ∧
      (handleEndEvent loadOk st).1.now_playing_song =
        some (getIdx st.current_playlist
          ((st.current_song_index + 1) % (st.current_playlist.length : Int)))) ∧
    (vp ≠ [] → loadOk (getIdx (shuffle vp) 0) = false →
      (handleShufflePlay shuffle loadOk vp st).2 =
        [Action.saveConfig, Action.reportLoadFailed (basename (getIdx (shuffle vp) 0))] ∧
      (handleShufflePlay shuffle loadOk vp st).1.is_paused = st.is_paused ∧
      (handleShufflePlay shuffle loadOk vp st).1.now_playing_song =
        some (getIdx (shuffle vp) 0)) ∧
    (∀ selected, selected ∈ vp → loadOk selected = false →
      (handleSelectFile shuffle loadOk vp selected st).2 =
        [Action.reportLoadFailed (basename selected)] ∧
      (handleSelectFile shuffle loadOk vp selected st).1.is_paused = st.is_paused ∧
      (handleSelectFile shuffle loadOk vp selected st).1.now_playing_song = some selected) := by
  obtain ⟨cf, pl, i, np, ip, q⟩ := st
  refine ⟨?_, ?_, ?_, ?_, ?_⟩
  · rintro x rest rfl hfail
    exact ⟨by simp [handleEndEvent, play_song, hfail], rfl, rfl⟩
  · rintro x rest rfl hfail
    exact ⟨by simp [handleNext, play_song, hfail], rfl, rfl⟩
  · rintro rfl hpe hfail
    refine ⟨?_, ?_, ?_⟩
    · simp [handleEndEvent, hpe, play_song, hfail]
    · simp [handleEndEvent, hpe]
    · simp [handleEndEvent, hpe]
  · intro hvp hfail
    have he : ¬ ((vp : List Name).isEmpty = true) := by simp [hvp]
    have hred : handleShufflePlay shuffle loadOk vp ⟨cf, pl, i, np, ip, q⟩ =
        ({ config := { cf with shuffle_on := true },
           current_playlist := shuffle vp,
           current_song_index := 0,
           now_playing_song := some (getIdx (shuffle vp) 0),
           is_paused := ip, queue := q },
         Action.saveConfig :: (play_song loadOk (getIdx (shuffle vp) 0)).2) := by
      simp only [handleShufflePlay]
      rw [if_neg he]
    rw [hred]
    exact ⟨by simp [play_song, hfail], rfl, rfl⟩
  · intro selected hsel hfail
    have hmem : selected ∈ (if cf.shuffle_on then shuffle vp else sortNames vp) := by
      split
      · exact (hperm vp).mem_iff.2 hsel
      · exact mem_sortNames.2 hsel
    have hidx : indexOrZero (if cf.shuffle_on then shuffle vp else sortNames vp) selected =
        (((if cf.shuffle_on then shuffle vp else sortNames vp).indexOf selected : Nat) : Int) :=
      if_pos hmem
    have hget : getIdx (if cf.shuffle_on then shuffle vp else sortNames vp)
        (indexOrZero (if cf.shuffle_on then shuffle vp else sortNames vp) selected) =
        selected := by
      rw [hidx]; exact getIdx_indexOf hmem
    refine ⟨?_, rfl, ?_⟩
    · show (play_song loadOk (getIdx (if cf.shuffle_on then shuffle vp else sortNames vp)
        (indexOrZero (if cf.shuffle_on then shuffle vp else sortNames vp) selected))).2 = _
      rw [hget]
      simp [play_song, hfail]
    · show some (getIdx (if cf.shuffle_on then shuffle vp else sortNames vp)
        (indexOrZero (if cf.shuffle_on then shuffle vp else sortNames vp) selected)) =
        some selected
      rw [hget]

/-- Witness for C1 (amended) on the concrete state with `bad.mp3` queued
and a failing engine. -/
theorem c1_load_failure_witness :
    (handleNext (fun _ => false) stC1).2 =
      [Action.reportLoadFailed (basename "bad.mp3".data)] ∧
    (handleNext (fun _ => false) stC1).1.is_paused = stC1.is_paused ∧
    (handleNext (fun _ => false) stC1).1.now_playing_song = some "bad.mp3".data :=
  (c1_load_failure_amended (fun l => l) (fun _ => false) [] stC1
    (fun l => List.Perm.refl l)).2.1 "bad.mp3".data [] rfl rfl

/-! Helper lemmas for the directory listing claims. -/

theorem kind_match_iff (k : EntryKind) :
    (match k with | EntryKind.dir => true | EntryKind.file => false) = true ↔
      k = EntryKind.dir := by
  cases k <;> simp

theorem isDirEntry_iff {d : List DirEntry} {x : Name} :
    isDirEntry d x = true ↔ ∃ e ∈ d, e.name = x ∧ e.kind = EntryKind.dir := by
  simp only [isDirEntry, List.any_eq_true, Bool.and_eq_true, beq_iff_eq]
  constructor
  · rintro ⟨e, he, h1, h2⟩
    exact ⟨e, he, h1, (kind_match_iff e.kind).1 h2⟩
  · rintro ⟨e, he, h1, h2⟩
    exact ⟨e, he, h1, (kind_match_iff e.kind).2 h2⟩

theorem mem_listContents {d : List DirEntry} {x : Name} :
    x ∈ listContents d ↔ x ∈ d.map DirEntry.name :=
  mem_sortNames

/-- C5 counterexample: a directory whose single child is a DIRECTORY named
`a.mp3` makes the same name appear in both the subfolder listing and the
audio-file listing — the two sequences are not disjoint, and the
audio-file listing is not restricted to regular files. -/
theorem c5_counterexample :
    "a.mp3".data ∈ folders dEx ∧ "a.mp3".data ∈ audio_files dEx ∧
    isDirEntry dEx "a.mp3".data = true := by
  refine ⟨?_, ?_, ?_⟩ <;> decide

/-- C5 (amended): for every directory, the listing yields subfolders =
exactly the child directories and audio files = exactly the children (of
any kind, regular file or not) whose names carry a recognized audio
extension, both sorted ascending by name; the two sequences need not be
disjoint, since a child directory may carry an audio extension. -/
theorem c5_listing (d : List DirEntry) :
    List.Sorted (· ≤ ·) (folders d) ∧
    List.Sorted (· ≤ ·) (audio_files d) ∧
    (∀ x, x ∈ folders d ↔ ∃ e ∈ d, e.name = x ∧ e.kind = EntryKind.dir) ∧
    (∀ x, x ∈ audio_files d ↔
      x ∈ d.map DirEntry.name ∧ endswith x audio_extensions = true) := by
  refine ⟨?_, ?_, ?_, ?_⟩
  · exact (List.sorted_insertionSort _ _).filter _
  · exact (List.sorted_insertionSort _ _).filter _
  · intro x
    simp only [folders, List.mem_filter]
    constructor
    · rintro ⟨hmem, hdir⟩
      exact isDirEntry_iff.1 hdir
    · intro h
      refine ⟨mem_listContents.2 ?_, isDirEntry_iff.2 h⟩
      obtain ⟨e, he, h1, h2⟩ := h
      exact h1 ▸ List.mem_map_of_mem DirEntry.name he
  · intro x
    simp only [audio_files, List.mem_filter]
    rw [mem_listContents]

/-! Helper lemmas for the case-sensitivity claim. -/

theorem exts_lower : ∀ e ∈ audio_extensions, e.map Char.toLower = e := by decide

theorem exts_nosuffix :
    ∀ e1 ∈ audio_extensions, ∀ e2 ∈ audio_extensions, e1 <:+ e2 → e1 = e2 := by decide

theorem map_fix_of_suffix {f : Char → Char} {v m : Name} (hs : v <:+ m)
    (hm : m.map f = m) : v.map f = v := by
  obtain ⟨t, rfl⟩ := hs
  rw [List.map_append] at hm
  exact (List.append_inj hm (by simp)).2

theorem not_endswith_of_variant {s v e : Name} (he : e ∈ audio_extensions)
    (hlow : v.map Char.toLower = e) (hne : v ≠ e) (hsuf : v <:+ s) :
    endswith s audio_extensions = false := by
  by_contra hcon
  rw [Bool.not_eq_false] at hcon
  obtain ⟨e2, he2, hsuf2⟩ := List.any_eq_true.1 hcon
  rw [List.isSuffixOf_iff_suffix] at hsuf2
  rcases List.suffix_or_suffix_of_suffix hsuf2 hsuf with h | h
  · have hm : e2 <:+ e := by
      have h2 := h.map Char.toLower
      rwa [exts_lower e2 he2, hlow] at h2
    have he2e : e2 = e := exts_nosuffix e2 he2 e he hm
    have hlen : e2.length = v.length := by
      rw [he2e, ← hlow, List.length_map]
    exact hne ((h.eq_of_length hlen) ▸ he2e)
  · have hv : v.map Char.toLower = v := map_fix_of_suffix h (exts_lower e2 he2)
    exact hne (hv.symm.trans hlow)

/-- C10: audio-file recognition is a case-sensitive suffix match against
the lowercase extension set: a directory entry whose name ends with an
uppercase or mixed-case variant of a recognized extension (for example
`SONG.MP3`) never appears in the audio-file listing or the view playlist,
so it can never be selected, queued, or played from the menu. -/
theorem c10_case_sensitive_match (d : List DirEntry) (p s v e : Name)
    (he : e ∈ audio_extensions) (hlow : v.map Char.toLower = e) (hne : v ≠ e)
    (hsuf : v <:+ s) :
    s ∉ audio_files d ∧ joinPath p s ∉ view_playlist p d := by
  have hend := not_endswith_of_variant he hlow hne hsuf
  have hs : s ∉ audio_files d := by
    intro hmem
    have h2 : endswith s audio_extensions = true := (List.mem_filter.1 hmem).2
    rw [hend] at h2
    exact Bool.false_ne_true h2
  refine ⟨hs, ?_⟩
  intro hmem
  obtain ⟨f, hf, hjoin⟩ := List.mem_map.1 hmem
  have h3 : p ++ '/' :: f = p ++ '/' :: s := hjoin
  have h4 : f = s := by
    have h5 := List.append_cancel_left h3
    simpa using h5
  exact hs (h4 ▸ hf)

/-- Witness for C10: the regular file `SONG.MP3` is absent from the
audio-file listing of a directory that contains it. -/
theorem c10_case_sensitive_match_witness :
    "SONG.MP3".data ∉ audio_files dSong :=
  (c10_case_sensitive_match dSong "m".data "SONG.MP3".data ".MP3".data ".mp3".data
    (by decide) (by decide) (by decide) (by decide)).1

end ReaganPlayer
